import Mathlib

/-
  Verification of the multisig approval and transaction-queue engine of the
  `bpr` repository.

  The repository ships the TypeScript/JavaScript clients and test suites of
  several Solana multisig programs (`anchor-multisig`, `anchor-multisig2`,
  `anchor-multisig3`, and an spl-token `createMultisig` script); the Rust
  program sources themselves are not part of the repository.  The models
  below are therefore written from the design spec (sections 3, 4 and 7),
  with every behavioural choice the spec leaves open pinned by the account
  states the repository's own test suites fetch and assert on:

  - `anchor-multisig/tests/anchor-multisig.ts` (minimal variant): a created
    transaction starts with the proposer's approval bit set and
    `executed = false`; an `approve` call records a bit and does not
    execute even when the approval count reaches the threshold.
  - `anchor-multisig3/tests/anchor-multisig3.ts` and its later revision
    (`src/unnamed/part_004`): queue of transfers, global per-signer
    `signed` bitmap (all false right after transfers are created), the
    recorded fund balance debited at `createTransfer` time, the whole
    queue executed by the approve call that reaches the threshold.  The
    two revisions disagree on whether the bitmap is reset when the queue
    drains; both behaviours are modelled (`approve3` resets, per the later
    revision, `approve3Keep` keeps the bits, per the earlier one).
  - `anchor-multisig2/tests/anchor-multisig2.ts` and its other revision
    (`src/unnamed/part_005`): fixed 11-slot signer array, 10-slot
    transaction list, the paying funder inserted as the first signer.
-/

/-- Error taxonomy of the multisig engine, from spec section 7. -/
inductive MsErr where
  | invalidConfiguration
  | notASigner
  | queueFull
  | insufficientFunds
  | alreadyApproved
  | notFound
  | staleApprovalGeneration
  | missingAccount
  | nonZeroBalance
deriving DecidableEq, Repr

instance {ε α : Type} [DecidableEq ε] [DecidableEq α] :
    DecidableEq (Except ε α) := fun a b =>
  match a, b with
  | .ok x, .ok y =>
    if h : x = y then .isTrue (by rw [h])
    else .isFalse (by intro hc; cases hc; exact h rfl)
  | .error x, .error y =>
    if h : x = y then .isTrue (by rw [h])
    else .isFalse (by intro hc; cases hc; exact h rfl)
  | .ok _, .error _ => .isFalse (by intro hc; cases hc)
  | .error _, .ok _ => .isFalse (by intro hc; cases hc)

/-! ## The spec's Approval Engine and Multisig Controller (section 4)

Modelled from the spec: the Rust sources of the multisig programs are not in
the repository, so the Controller of section 4.5 and the Approval Engine of
section 4.4 are embedded directly from the spec's contracts.  Identities are
`Nat`, the fund balance is an `Int` so that non-negativity is a provable
property rather than a typing artifact. -/

/-- Modelled from the spec: a queue entry (spec section 3, "Proposal"):
destination, amount, and a per-signer approval bit-vector sized to N. -/
structure Proposal where
  destination : Nat
  amount : Nat
  approvals : List Bool
deriving DecidableEq, Repr

/-- Modelled from the spec: the aggregate Multisig Account (spec sections 3
and 6): signer set, threshold, queue capacity, custody-fund balance, and the
proposal queue.  Queue entries are keyed by a stable handle (spec 4.3). -/
structure Multisig where
  signers : List Nat
  threshold : Nat
  queueDepth : Nat
  balance : Int
  nextHandle : Nat
  queue : List (Nat × Proposal)
deriving DecidableEq, Repr

/-- Maximum signer-set size; 11 in the fixed-array variant
(`anchor-multisig2` stores an 11-slot signer array). -/
def maxSigners : Nat := 11

/-- Modelled from the spec: configuration validation of spec section 4.1:
N within the max bound, m in [1, N], no duplicate identities. -/
def validConfig (signers : List Nat) (m : Nat) : Prop :=
  signers.Nodup ∧ signers.length ≤ maxSigners ∧ 1 ≤ m ∧ m ≤ signers.length

instance (signers : List Nat) (m : Nat) : Decidable (validConfig signers m) := by
  unfold validConfig; infer_instance

/-- Modelled from the spec: `open` (spec section 4.5): allocates the
aggregate after validating the configuration; fails with
`InvalidConfiguration` otherwise, creating no state. -/
def openMultisig (signers : List Nat) (m q : Nat) : Except MsErr Multisig :=
  if validConfig signers m then
    .ok { signers := signers, threshold := m, queueDepth := q,
          balance := 0, nextHandle := 0, queue := [] }
  else .error .invalidConfiguration

/-- Modelled from the spec: `fund`/`deposit` (spec sections 4.2, 4.5):
always succeeds and increases the balance. -/
def deposit (st : Multisig) (amount : Nat) : Multisig :=
  { st with balance := st.balance + amount }

/-- Modelled from the spec: `propose`/`createTransfer` (spec sections 4.3,
4.4): NotASigner, then QueueFull at capacity, then InsufficientFunds when
the amount exceeds the balance; otherwise appends a proposal with an empty
approval bit-vector (the spec's default: the proposer does not
auto-approve) and returns state with a fresh stable handle. -/
def propose (st : Multisig) (caller dest amount : Nat) :
    Multisig × Option MsErr :=
  if caller ∈ st.signers then
    if st.queue.length = st.queueDepth then (st, some .queueFull)
    else if st.balance < (amount : Int) then (st, some .insufficientFunds)
    else
      ({ st with
          queue := st.queue ++ [(st.nextHandle,
            { destination := dest, amount := amount,
              approvals := List.replicate st.signers.length false })],
          nextHandle := st.nextHandle + 1 }, none)
  else (st, some .notASigner)

/-- The auxiliary account list covers every queued destination
(the Controller-side check of spec section 4.5). -/
def coversQueue (st : Multisig) (aux : List Nat) : Bool :=
  st.queue.all fun e => aux.contains e.2.destination

/-- Queue well-formedness (spec section 3 invariant): every queued
proposal's approval bit-vector is sized to the signer set. -/
def wfQueue (st : Multisig) : Bool :=
  st.queue.all fun e => e.2.approvals.length == st.signers.length

/-- Modelled from the spec: `approve` (spec sections 4.4, 4.5).  The
Controller first validates the auxiliary account list (MissingAccount),
then the engine checks NotASigner, NotFound, AlreadyApproved, records the
caller's approval and, when the resulting count reaches the threshold,
withdraws and removes the entry atomically; if the withdraw would fail the
whole call is rolled back and InsufficientFunds surfaced (spec 4.4). -/
def approve (st : Multisig) (caller h : Nat) (aux : List Nat) :
    Multisig × Option MsErr :=
  if coversQueue st aux then
    if caller ∈ st.signers then
      let idx := st.signers.indexOf caller
      match st.queue.find? (fun e => e.1 == h) with
      | none => (st, some .notFound)
      | some e =>
        if e.2.approvals.getD idx false then (st, some .alreadyApproved)
        else
          let p2 := { e.2 with approvals := e.2.approvals.set idx true }
          if st.threshold ≤ p2.approvals.count true then
            if st.balance < (e.2.amount : Int) then
              (st, some .insufficientFunds)
            else
              ({ st with
                  balance := st.balance - e.2.amount,
                  queue := st.queue.filter fun q => q.1 != h }, none)
          else
            ({ st with
                queue := st.queue.map fun q =>
                  if q.1 = h then (q.1, p2) else q }, none)
    else (st, some .notASigner)
  else (st, some .missingAccount)

/-- Modelled from the spec: `close` (spec section 4.5): fails with
NonZeroBalance unless the custody-fund balance is zero; on success the
aggregate is deallocated (`none`). -/
def closeMs (st : Multisig) : Option Multisig × Option MsErr :=
  if st.balance ≠ 0 then (some st, some .nonZeroBalance) else (none, none)

/-- The Controller operations on an existing account (spec section 4.5);
`open` is separate because it creates the state. -/
inductive MsOp where
  | fund (amount : Nat)
  | propose (caller dest amount : Nat)
  | approve (caller h : Nat) (aux : List Nat)
  | close
deriving Repr

/-- One Controller call on an existing aggregate: the resulting persisted
state (`none` once deallocated) and the surfaced error, if any. -/
def applyOp (st : Multisig) : MsOp → Option Multisig × Option MsErr
  | .fund a => (some (deposit st a), none)
  | .propose c d a => (some (propose st c d a).1, (propose st c d a).2)
  | .approve c h aux => (some (approve st c h aux).1, (approve st c h aux).2)
  | .close => closeMs st

/-! ## The minimal `anchor-multisig` variant

Modelled from the spec: the Rust source of the `anchor-multisig` program is
not in the repository; the transaction state machine of spec section 4.4 is
embedded with the behaviour fixed by the account states the test suite
`src/anchor-multisig/tests/anchor-multisig.ts` fetches and asserts on: a
created transaction carries `signers = [true, false, false]` for proposer
`ownerA` (the proposer's approval bit is set at creation) and
`executed = false`; after `approveTransaction` by `ownerB` the bits are
`[true, true, false]` and `executed` is still `false` although the
threshold (2) is reached — approval never executes in this variant. -/

/-- A transaction account of the minimal variant: a per-owner approval
bit-vector, the executed flag and the owner-set generation. -/
structure MsTransaction where
  signers : List Bool
  executed : Bool
  ownerSetSeqno : Nat
deriving DecidableEq, Repr

/-- The minimal variant's multisig account: owner identities, threshold,
and the owner-set generation counter. -/
structure MsAccount where
  owners : List Nat
  threshold : Nat
  ownerSetSeqno : Nat
deriving DecidableEq, Repr

/-- Modelled from the spec: transaction creation of the minimal variant.
The proposer must be an owner; the fresh transaction records the
proposer's approval bit (observed at `anchor-multisig.ts:420`) and is not
executed. -/
def createTransaction (ms : MsAccount) (proposer : Nat) :
    Except MsErr MsTransaction :=
  if proposer ∈ ms.owners then
    .ok { signers :=
            (List.replicate ms.owners.length false).set
              (ms.owners.indexOf proposer) true,
          executed := false, ownerSetSeqno := ms.ownerSetSeqno }
  else .error .notASigner

/-- Modelled from the spec: approval of the minimal variant: records the
caller's bit and nothing else — in particular it does not execute the
transaction even when the count reaches the threshold (observed at
`anchor-multisig.ts:447-450`). -/
def approveTransaction (ms : MsAccount) (tx : MsTransaction) (owner : Nat) :
    Except MsErr MsTransaction :=
  if owner ∈ ms.owners then
    let idx := ms.owners.indexOf owner
    if tx.signers.getD idx false then .error .alreadyApproved
    else .ok { tx with signers := tx.signers.set idx true }
  else .error .notASigner

/-! ## The funded-queue `anchor-multisig3` variant

Modelled from the spec: the Rust source of the `anchor-multisig3` program
is not in the repository; the funded queue of spec sections 4.2-4.4 is
embedded with the behaviour fixed by the states its two test revisions
fetch: the account keeps a global per-signer `signed` bitmap (not a
per-proposal one), `createTransfer` debits the recorded balance at
creation time and leaves the bitmap untouched, and the `approve` call that
brings the number of set bits to the threshold executes and removes every
queued transfer in the same step. -/

/-- A queued transfer of the `anchor-multisig3` variant. -/
structure Transfer3 where
  payee : Nat
  amount : Nat
deriving DecidableEq, Repr

/-- The `anchor-multisig3` account state: threshold `m`, queue capacity
`q`, signer set, the global per-signer `signed` bitmap, the transfer
queue, and the recorded remaining fund balance. -/
structure State3 where
  m : Nat
  q : Nat
  signers : List Nat
  signed : List Bool
  queue : List Transfer3
  balance : Int
deriving DecidableEq, Repr

/-- Modelled from the spec: `create` of the `anchor-multisig3` variant:
validates the configuration (spec section 4.1) and allocates the account
with an all-false bitmap, an empty queue and a zero balance
(observed at `anchor-multisig3.ts:84-99`). -/
def create3 (signers : List Nat) (m q : Nat) : Except MsErr State3 :=
  if validConfig signers m then
    .ok { m := m, q := q, signers := signers,
          signed := List.replicate signers.length false,
          queue := [], balance := 0 }
  else .error .invalidConfiguration

/-- Modelled from the spec: `fund`: always succeeds and increases the
recorded balance (observed at `anchor-multisig3.ts:120-139`). -/
def fund3 (st : State3) (amount : Nat) : State3 :=
  { st with balance := st.balance + amount }

/-- Modelled from the spec: `createTransfer`: NotASigner, QueueFull, then
InsufficientFunds when the amount exceeds the recorded balance; on success
the transfer is appended and the recorded balance debited immediately —
creation-time debit, observed at `anchor-multisig3.ts:141-175` where the
remaining fund equals deposits minus the created transfers' amounts before
any approval.  The `signed` bitmap is untouched
(`anchor-multisig3.ts:208`). -/
def createTransfer3 (st : State3) (creator payee amount : Nat) :
    State3 × Option MsErr :=
  if creator ∈ st.signers then
    if st.queue.length = st.q then (st, some .queueFull)
    else if st.balance < (amount : Int) then (st, some .insufficientFunds)
    else
      ({ st with
          queue := st.queue ++ [{ payee := payee, amount := amount }],
          balance := st.balance - amount }, none)
  else (st, some .notASigner)

/-- Modelled from the spec: `approve` of the later `anchor-multisig3`
revision (`src/unnamed/part_004`): records the caller's bit
(AlreadyApproved when it is already set, spec section 4.4); when the
number of set bits reaches the threshold the whole queue is executed and
removed and the bitmap is reset to all-false in the same step
(`part_004:245-250`). -/
def approve3 (st : State3) (s : Nat) : State3 × Option MsErr :=
  if s ∈ st.signers then
    let idx := st.signers.indexOf s
    if st.signed.getD idx false then (st, some .alreadyApproved)
    else
      let signed2 := st.signed.set idx true
      if st.m ≤ signed2.count true then
        ({ st with
            queue := [],
            signed := List.replicate st.signers.length false }, none)
      else ({ st with signed := signed2 }, none)
  else (st, some .notASigner)

/-- Modelled from the spec: `approve` of the earlier `anchor-multisig3`
revision (`tests/anchor-multisig3.ts`): identical, except that draining
the queue leaves the approvers' bits set — the test expects three set
bits and an empty queue after the third approval
(`anchor-multisig3.ts:247-249`). -/
def approve3Keep (st : State3) (s : Nat) : State3 × Option MsErr :=
  if s ∈ st.signers then
    let idx := st.signers.indexOf s
    if st.signed.getD idx false then (st, some .alreadyApproved)
    else
      let signed2 := st.signed.set idx true
      if st.m ≤ signed2.count true then
        ({ st with queue := [], signed := signed2 }, none)
      else ({ st with signed := signed2 }, none)
  else (st, some .notASigner)

/-- The `anchor-multisig3` operations on an open account. -/
inductive Op3 where
  | fund (amount : Nat)
  | createTransfer (creator payee amount : Nat)
  | approve (s : Nat)
deriving DecidableEq, Repr

/-- One operation step (later revision's approve). -/
def step3 (st : State3) : Op3 → State3 × Option MsErr
  | .fund a => (fund3 st a, none)
  | .createTransfer c p a => createTransfer3 st c p a
  | .approve s => approve3 st s

/-- Run a sequence of operations, keeping the persisted state (errors are
side-effect-free, so the state of a failed call is the previous one). -/
def run3 (st : State3) : List Op3 → State3
  | [] => st
  | op :: ops => run3 (step3 st op).1 ops

/-- The ledger wrapper of the `anchor-multisig3` account: the (possibly
deallocated) aggregate, the funder's lamports, and the storage cost paid
at open time. -/
structure Ledger3 where
  account : Option State3
  funderLamports : Int
  rent : Int
deriving DecidableEq, Repr

/-- Modelled from the spec: `close` (spec section 4.5): fails with
NonZeroBalance unless the custody-fund balance is zero; on success the
aggregate is deallocated — a later fetch finds nothing
(`anchor-multisig3.ts:101-118`) — and the storage cost is refunded to the
funder. -/
def close3 (lg : Ledger3) : Ledger3 × Option MsErr :=
  match lg.account with
  | none => (lg, some .notFound)
  | some st =>
    if st.balance ≠ 0 then (lg, some .nonZeroBalance)
    else
      ({ lg with
          account := none,
          funderLamports := lg.funderLamports + lg.rent }, none)

/-! ## The fixed-array `anchor-multisig2` variant

Modelled from the spec: the Rust source of the `anchor-multisig2` program
is not in the repository; `open` is embedded with the behaviour fixed by
the account states the two test revisions fetch: an 11-slot signer array
and a 10-slot transaction list (`anchor-multisig2.ts:42`,
`part_005:48-58`), the paying funder stored as the first signer with
`n = 3` for two supplied signers (`anchor-multisig2.ts:38-39`), and
`n = 3` again when the supplied three-element list already contains the
payer (`part_005:15-21,53`) — so the payer is inserted only when absent
from the supplied list. -/

/-- Number of transaction slots of the `anchor-multisig2` account. -/
def maxTxs2 : Nat := 10

/-- The `anchor-multisig2` account state: threshold `m`, signer count `n`,
the fixed 11-slot signer array (unused slots zeroed), the occupied-slot
count `txQueued` and the fixed 10-slot transaction list. -/
structure Multisig2 where
  m : Nat
  n : Nat
  signers : List Nat
  txQueued : Nat
  txs : List (Option Nat)
deriving DecidableEq, Repr

/-- Modelled from the spec: `open` of the `anchor-multisig2` variant: the
payer is prepended to the supplied signer list when absent from it, the
configuration is validated (spec section 4.1), and the account is
allocated with the signer array padded to 11 slots and 10 empty
transaction slots. -/
def openMultisig2 (payer : Nat) (supplied : List Nat) (m : Nat) :
    Except MsErr Multisig2 :=
  let sigs := if payer ∈ supplied then supplied else payer :: supplied
  if validConfig sigs m then
    .ok { m := m, n := sigs.length,
          signers := sigs ++ List.replicate (maxSigners - sigs.length) 0,
          txQueued := 0, txs := List.replicate maxTxs2 none }
  else .error .invalidConfiguration

/-! ## Helper lemmas -/

/-- Setting a bit inside bounds makes `getD` read it back. -/
theorem getD_set_self (l : List Bool) (i : Nat) (a d : Bool)
    (h : i < l.length) : (l.set i a).getD i d = a := by
  rw [List.getD_eq_getElem _ _ (by simpa using h)]
  simp

/-- A successful `find?` hit with an equality key pins the key. -/
theorem find?_key_eq {l : List (Nat × Proposal)} {h : Nat} {e : Nat × Proposal}
    (hf : l.find? (fun q => q.1 == h) = some e) : e.1 = h := by
  simpa using List.find?_some hf

/-- After filtering handle `h` out, no entry with key `h` is found. -/
theorem find?_filter_ne (l : List (Nat × Proposal)) (h : Nat) :
    ((l.filter fun q => q.1 != h).find? fun q => q.1 == h) = none := by
  rw [List.find?_eq_none]
  intro x hx
  have hne := (List.mem_filter.1 hx).2
  simpa using hne

/-- Replacing the entry with key `h` keeps it findable, now carrying the
replacement payload. -/
theorem find?_update (l : List (Nat × Proposal)) (h : Nat) (p2 : Proposal)
    (hf : (l.find? fun q => q.1 == h).isSome = true) :
    ((l.map fun q => if q.1 = h then (q.1, p2) else q).find?
      fun q => q.1 == h) = some (h, p2) := by
  induction l with
  | nil => simp at hf
  | cons x xs ih =>
    by_cases hx : x.1 = h
    · simp [List.find?_cons_of_pos, hx]
    · have hx' : (x.1 == h) = false := by simpa using hx
      simp only [List.map_cons, if_neg hx]
      rw [List.find?_cons_of_neg _ (by simp [hx']),
        ih (by simpa [List.find?_cons_of_neg, hx'] using hf)]

/-! ## C7: closure safety -/

/-- C7: `close` fails with NonZeroBalance whenever the custody-fund balance
is nonzero, for any queue contents; when the balance is zero, `close`
succeeds, deallocates the aggregate (a later fetch of the account finds
nothing) and refunds the storage cost to the funder. -/
theorem C7_theorem (lg : Ledger3) (st : State3) (hacc : lg.account = some st) :
    (st.balance ≠ 0 → close3 lg = (lg, some MsErr.nonZeroBalance)) ∧
    (st.balance = 0 → close3 lg =
      ({ lg with
          account := none,
          funderLamports := lg.funderLamports + lg.rent }, none)) := by
  constructor <;> intro hb <;> simp [close3, hacc, hb]

def stW7a : State3 :=
  { m := 1, q := 1, signers := [1], signed := [false],
    queue := [{ payee := 9, amount := 5 }], balance := 5 }

def stW7b : State3 :=
  { m := 1, q := 1, signers := [1], signed := [false],
    queue := [], balance := 0 }

def lgW7a : Ledger3 :=
  { account := some stW7a, funderLamports := 10, rent := 2 }

def lgW7b : Ledger3 :=
  { account := some stW7b, funderLamports := 10, rent := 2 }

theorem C7_witness :
    close3 lgW7a = (lgW7a, some MsErr.nonZeroBalance) ∧
    close3 lgW7b = ({ lgW7b with
      account := none,
      funderLamports := lgW7b.funderLamports + lgW7b.rent }, none) :=
  ⟨(C7_theorem lgW7a stW7a rfl).1 (by decide),
   (C7_theorem lgW7b stW7b rfl).2 (by decide)⟩

/-! ## C8: configuration validation at open -/

/-- C8: `open` fails with InvalidConfiguration, creating no state, unless
the supplied signer set has no duplicates, its size is within the maximum
bound (11 in the fixed-array variant) and the threshold m satisfies
1 ≤ m ≤ N; on success the stored threshold and signer set equal the
validated inputs. -/
theorem C8_theorem (signers : List Nat) (m q : Nat) :
    (¬ (signers.Nodup ∧ signers.length ≤ maxSigners ∧
          1 ≤ m ∧ m ≤ signers.length) →
      openMultisig signers m q = .error MsErr.invalidConfiguration) ∧
    ((signers.Nodup ∧ signers.length ≤ maxSigners ∧
          1 ≤ m ∧ m ≤ signers.length) →
      openMultisig signers m q =
        .ok { signers := signers, threshold := m, queueDepth := q,
              balance := 0, nextHandle := 0, queue := [] }) := by
  constructor <;> intro hv
  · rw [openMultisig, if_neg (by simpa [validConfig] using hv)]
  · rw [openMultisig, if_pos (by simpa [validConfig] using hv)]

theorem C8_witness :
    openMultisig [1, 1] 1 4 = .error MsErr.invalidConfiguration ∧
    openMultisig [5, 6, 7] 2 9 =
      .ok { signers := [5, 6, 7], threshold := 2, queueDepth := 9,
            balance := 0, nextHandle := 0, queue := [] } :=
  ⟨(C8_theorem [1, 1] 1 4).1 (by decide),
   (C8_theorem [5, 6, 7] 2 9).2 (by decide)⟩

/-! ## C2: all-or-nothing operations -/

/-- A failed `propose` returns the starting state. -/
theorem propose_fst_of_error (st : Multisig) (c d a : Nat)
    (he : ((propose st c d a).2).isSome = true) :
    (propose st c d a).1 = st := by
  by_cases h1 : c ∈ st.signers
  · by_cases h2 : st.queue.length = st.queueDepth
    · simp [propose, h1, h2]
    · by_cases h3 : st.balance < (a : Int)
      · simp [propose, h1, h2, h3]
      · simp [propose, h1, h2, h3] at he
  · simp [propose, h1]

/-- A failed `approve` returns the starting state. -/
theorem approve_fst_of_error (st : Multisig) (c h : Nat) (aux : List Nat)
    (he : ((approve st c h aux).2).isSome = true) :
    (approve st c h aux).1 = st := by
  by_cases h1 : coversQueue st aux = true
  · by_cases h2 : c ∈ st.signers
    · rcases hf : st.queue.find? (fun e => e.1 == h) with _ | e
      · simp [approve, h1, h2, hf]
      · by_cases h3 :
            (e.2.approvals[st.signers.indexOf c]?).getD false = true
        · simp [approve, h1, h2, hf, h3]
        · by_cases h4 : st.threshold ≤
              ((e.2.approvals.set (st.signers.indexOf c) true).count true)
          · by_cases h5 : st.balance < (e.2.amount : Int)
            · simp [approve, h1, h2, hf, h3, h4, h5]
            · simp [approve, h1, h2, hf, h3, h4, h5] at he
          · simp [approve, h1, h2, hf, h3, h4] at he
    · simp [approve, h1, h2]
  · simp [approve, h1]

/-- C2: every Controller operation on an existing aggregate is
all-or-nothing: whenever a call surfaces an error, the persisted state is
exactly what it was before the call — in particular an approve whose
execution-time withdraw would fail leaves the proposal queued with its
approvals intact and surfaces the error (`open` errors create no state by
construction of `openMultisig`). -/
theorem C2_theorem (st : Multisig) (op : MsOp)
    (he : ((applyOp st op).2).isSome = true) :
    (applyOp st op).1 = some st := by
  cases op with
  | fund a => simp [applyOp] at he
  | propose c d a =>
    simpa [applyOp] using propose_fst_of_error st c d a (by simpa [applyOp] using he)
  | approve c h aux =>
    simpa [applyOp] using approve_fst_of_error st c h aux (by simpa [applyOp] using he)
  | close =>
    by_cases hb : st.balance = 0
    · simp [applyOp, closeMs, hb] at he
    · simp [applyOp, closeMs, hb]

/-- A state in which signer 1 has approved the only queued proposal, the
threshold is 2 and the recorded balance is too small for the proposal's
amount: signer 2's approval reaches quorum but the execution-time withdraw
fails. -/
def stW2 : Multisig :=
  { signers := [1, 2], threshold := 2, queueDepth := 3, balance := 0,
    nextHandle := 2,
    queue := [(1, { destination := 7, amount := 5,
                    approvals := [true, false] })] }

theorem C2_witness :
    (applyOp stW2 (MsOp.approve 2 1 [7])).2 = some MsErr.insufficientFunds ∧
    (applyOp stW2 (MsOp.approve 2 1 [7])).1 = some stW2 :=
  ⟨by decide, C2_theorem stW2 (MsOp.approve 2 1 [7]) (by decide)⟩

/-! ## C3: creation-time InsufficientFunds and non-negative balance -/

/-- An `approve` never changes the recorded balance (the fund was already
debited when the transfer was accepted). -/
theorem approve3_fst_balance (st : State3) (s : Nat) :
    ((approve3 st s).1).balance = st.balance := by
  by_cases h1 : s ∈ st.signers
  · by_cases h2 : (st.signed[st.signers.indexOf s]?).getD false = true
    · simp [approve3, h1, h2]
    · by_cases h3 :
          st.m ≤ (st.signed.set (st.signers.indexOf s) true).count true
      · simp [approve3, h1, h2, h3]
      · simp [approve3, h1, h2, h3]
  · simp [approve3, h1]

/-- Every single operation keeps the recorded balance non-negative. -/
theorem step3_balance_nonneg (st : State3) (op : Op3)
    (h : 0 ≤ st.balance) : 0 ≤ ((step3 st op).1).balance := by
  cases op with
  | fund a => simp only [step3, fund3]; omega
  | createTransfer c p a =>
    by_cases h1 : c ∈ st.signers
    · by_cases h2 : st.queue.length = st.q
      · simpa [step3, createTransfer3, h1, h2] using h
      · by_cases h3 : st.balance < (a : Int)
        · simpa [step3, createTransfer3, h1, h2, h3] using h
        · simp [step3, createTransfer3, h1, h2, h3]
          omega
    · simpa [step3, createTransfer3, h1] using h
  | approve s =>
    rw [step3, approve3_fst_balance]; exact h

/-- Running any operation sequence keeps the balance non-negative. -/
theorem run3_balance_nonneg (ops : List Op3) (st : State3)
    (h : 0 ≤ st.balance) : 0 ≤ (run3 st ops).balance := by
  induction ops generalizing st with
  | nil => simpa [run3] using h
  | cons op ops ih => rw [run3]; exact ih _ (step3_balance_nonneg st op h)

/-- C3: `createTransfer` rejects, at creation time, any transfer whose
amount exceeds the fund's current recorded balance, failing with
InsufficientFunds and leaving the whole state (queue included) unchanged;
consequently, from any freshly created account, the recorded fund balance
never goes negative. -/
theorem C3_theorem :
    (∀ (st : State3) (creator payee amount : Nat),
        creator ∈ st.signers → st.queue.length ≠ st.q →
        st.balance < (amount : Int) →
        createTransfer3 st creator payee amount =
          (st, some MsErr.insufficientFunds)) ∧
    (∀ (signers : List Nat) (m q : Nat) (st0 : State3) (ops : List Op3),
        create3 signers m q = .ok st0 → 0 ≤ (run3 st0 ops).balance) := by
  constructor
  · intro st c p a h1 h2 h3
    simp [createTransfer3, h1, h2, h3]
  · intro signers m q st0 ops hcr
    have hb : st0.balance = 0 := by
      unfold create3 at hcr
      split at hcr
      · cases hcr; rfl
      · cases hcr
    exact run3_balance_nonneg ops st0 (by rw [hb])

def stW3 : State3 :=
  { m := 1, q := 2, signers := [1, 2], signed := [false, false],
    queue := [], balance := 0 }

theorem C3_witness :
    createTransfer3 stW3 1 9 5 = (stW3, some MsErr.insufficientFunds) ∧
    0 ≤ (run3 stW3 [Op3.fund 3, Op3.createTransfer 1 9 2,
          Op3.approve 1]).balance :=
  ⟨C3_theorem.1 stW3 1 9 5 (by decide) (by decide) (by decide),
   C3_theorem.2 [1, 2] 1 2 stW3 _ (by decide)⟩

/-! ## C10: creation-time debit of the recorded fund -/

/-- Amount deposited by one operation. -/
def depositAmount3 (op : Op3) : Int :=
  match op with
  | .fund a => a
  | _ => 0

/-- Amount accepted into the queue by one operation (0 when the call is
rejected). -/
def acceptedAmount3 (st : State3) (op : Op3) : Int :=
  match op with
  | .createTransfer c p a =>
    if (createTransfer3 st c p a).2 = none then a else 0
  | _ => 0

/-- Total deposits along a trace. -/
def traceDeposits : State3 → List Op3 → Int
  | _, [] => 0
  | st, op :: ops => depositAmount3 op + traceDeposits (step3 st op).1 ops

/-- Total accepted transfer amounts along a trace. -/
def traceAccepted : State3 → List Op3 → Int
  | _, [] => 0
  | st, op :: ops => acceptedAmount3 st op + traceAccepted (step3 st op).1 ops

/-- One step's recorded balance: deposits credit it, accepted transfers
debit it at creation time, approvals leave it alone. -/
theorem step3_balance (st : State3) (op : Op3) :
    ((step3 st op).1).balance =
      st.balance + depositAmount3 op - acceptedAmount3 st op := by
  cases op with
  | fund a => simp [step3, fund3, depositAmount3, acceptedAmount3]
  | createTransfer c p a =>
    by_cases h1 : c ∈ st.signers
    · by_cases h2 : st.queue.length = st.q
      · simp [step3, createTransfer3, depositAmount3, acceptedAmount3,
          h1, h2]
      · by_cases h3 : st.balance < (a : Int)
        · simp [step3, createTransfer3, depositAmount3, acceptedAmount3,
            h1, h2, h3]
        · simp [step3, createTransfer3, depositAmount3, acceptedAmount3,
            h1, h2, h3]
    · simp [step3, createTransfer3, depositAmount3, acceptedAmount3, h1]
  | approve s =>
    rw [step3, approve3_fst_balance]
    simp [depositAmount3, acceptedAmount3]

/-- Along any trace the recorded balance is the initial balance plus the
deposits minus the amounts accepted into the queue. -/
theorem run3_balance (ops : List Op3) (st : State3) :
    (run3 st ops).balance =
      st.balance + traceDeposits st ops - traceAccepted st ops := by
  induction ops generalizing st with
  | nil => simp [run3, traceDeposits, traceAccepted]
  | cons op ops ih =>
    rw [run3, traceDeposits, traceAccepted, ih, step3_balance]
    ring

/-- C10: in the `anchor-multisig3` variant the recorded fund balance is
debited at proposal-creation time: a successful `createTransfer` of amount
`a` appends the transfer and decreases the recorded balance by exactly `a`
with no approval recorded; consequently, after every operation sequence,
the recorded balance equals the starting balance plus all deposits minus
the amounts of all transfers ever accepted into the queue. -/
theorem C10_theorem :
    (∀ (st : State3) (creator payee amount : Nat) (st2 : State3),
        createTransfer3 st creator payee amount = (st2, none) →
        st2.balance = st.balance - amount ∧ st2.signed = st.signed ∧
        st2.queue = st.queue ++ [{ payee := payee, amount := amount }]) ∧
    (∀ (ops : List Op3) (st : State3),
        (run3 st ops).balance =
          st.balance + traceDeposits st ops - traceAccepted st ops) := by
  constructor
  · intro st c p a st2 hok
    by_cases h1 : c ∈ st.signers
    · by_cases h2 : st.queue.length = st.q
      · simp [createTransfer3, h1, h2] at hok
      · by_cases h3 : st.balance < (a : Int)
        · simp [createTransfer3, h1, h2, h3] at hok
        · simp [createTransfer3, h1, h2, h3] at hok
          subst hok
          simp
    · simp [createTransfer3, h1] at hok
  · exact fun ops st => run3_balance ops st

def stW10 : State3 :=
  { stW3 with balance := 3, queue := [{ payee := 9, amount := 5 }] }

theorem C10_witness :
    createTransfer3 (fund3 stW3 8) 1 9 5 = (stW10, none) ∧
    stW10.balance = (fund3 stW3 8).balance - 5 :=
  ⟨by decide,
   (C10_theorem.1 (fund3 stW3 8) 1 9 5 stW10 (by decide)).1⟩

/-! ## C1: quorum and execution -/

/-- The running invariant of the `anchor-multisig3` account: the threshold
is positive and the number of set bits never rests at or above it. -/
def inv3 (st : State3) : Prop :=
  1 ≤ st.m ∧ st.signed.count true < st.m

/-- A single `approve` preserves the invariant: its success branches either
stay below the threshold or drain the queue and reset the bitmap. -/
theorem approve3_inv (st : State3) (s : Nat) (h : inv3 st) :
    inv3 ((approve3 st s).1) := by
  obtain ⟨hm, hc⟩ := h
  by_cases h1 : s ∈ st.signers
  · by_cases h2 : (st.signed[st.signers.indexOf s]?).getD false = true
    · exact ⟨by simpa [approve3, h1, h2] using hm,
        by simpa [approve3, h1, h2] using hc⟩
    · by_cases h3 :
          st.m ≤ (st.signed.set (st.signers.indexOf s) true).count true
      · constructor
        · simpa [approve3, h1, h2, h3] using hm
        · simp [approve3, h1, h2, h3, List.count_replicate]
          omega
      · constructor
        · simpa [approve3, h1, h2, h3] using hm
        · simp [approve3, h1, h2, h3]
          omega
  · exact ⟨by simpa [approve3, h1] using hm, by simpa [approve3, h1] using hc⟩

/-- `createTransfer` never touches the threshold or the bitmap. -/
theorem createTransfer3_fst_m_signed (st : State3) (c p a : Nat) :
    ((createTransfer3 st c p a).1).m = st.m ∧
    ((createTransfer3 st c p a).1).signed = st.signed := by
  by_cases h1 : c ∈ st.signers
  · by_cases h2 : st.queue.length = st.q
    · simp [createTransfer3, h1, h2]
    · by_cases h3 : st.balance < (a : Int)
      · simp [createTransfer3, h1, h2, h3]
      · simp [createTransfer3, h1, h2, h3]
  · simp [createTransfer3, h1]

/-- Every operation preserves the invariant. -/
theorem inv3_step (st : State3) (op : Op3) (h : inv3 st) :
    inv3 ((step3 st op).1) := by
  cases op with
  | fund a => exact ⟨h.1, by simpa [step3, fund3] using h.2⟩
  | createTransfer c p a =>
    obtain ⟨hm, hs⟩ := createTransfer3_fst_m_signed st c p a
    exact ⟨by rw [step3, hm]; exact h.1, by rw [step3, hm, hs]; exact h.2⟩
  | approve s => exact approve3_inv st s h

/-- The invariant holds along every trace. -/
theorem run3_inv (ops : List Op3) (st : State3) (h : inv3 st) :
    inv3 (run3 st ops) := by
  induction ops generalizing st with
  | nil => simpa [run3] using h
  | cons op ops ih => rw [run3]; exact ih _ (inv3_step st op h)

/-- C1 (amended): in the `anchor-multisig3` variant, a successful approve
whose recorded bit brings the count of distinct approving signers to the
threshold `m` executes and removes every queued transfer and resets the
bitmap in the same step, while a successful approve that stays below `m`
leaves the queue exactly as it was; moreover, starting from any freshly
created account, after any operation sequence the resting approval count
is strictly below `m` — no quorum-reached proposal ever remains queued. -/
theorem C1_theorem :
    (∀ (st : State3) (s : Nat) (st2 : State3),
        s ∈ st.signers →
        (st.signed[st.signers.indexOf s]?).getD false = false →
        approve3 st s = (st2, none) →
        ((st.m ≤ (st.signed.set (st.signers.indexOf s) true).count true →
            st2.queue = [] ∧
            st2.signed = List.replicate st.signers.length false) ∧
         ((st.signed.set (st.signers.indexOf s) true).count true < st.m →
            st2.queue = st.queue ∧
            st2.signed = st.signed.set (st.signers.indexOf s) true))) ∧
    (∀ (signers : List Nat) (m q : Nat) (st0 : State3) (ops : List Op3),
        create3 signers m q = .ok st0 →
        (run3 st0 ops).signed.count true < (run3 st0 ops).m) := by
  constructor
  · intro st s st2 h1 hbit happ
    by_cases h3 :
        st.m ≤ (st.signed.set (st.signers.indexOf s) true).count true
    · simp [approve3, h1, hbit, h3] at happ
      constructor
      · intro _
        subst happ
        exact ⟨rfl, rfl⟩
      · intro hlt
        omega
    · simp [approve3, h1, hbit, h3] at happ
      constructor
      · intro hge
        omega
      · intro _
        subst happ
        exact ⟨rfl, rfl⟩
  · intro signers m q st0 ops hcr
    have h0 : inv3 st0 := by
      unfold create3 at hcr
      split at hcr
      · rename_i hv
        cases hcr
        exact ⟨hv.2.2.1, by simpa [List.count_replicate] using hv.2.2.1⟩
      · cases hcr
    exact (run3_inv ops st0 h0).2

def msDemo : MsAccount :=
  { owners := [10, 11, 12], threshold := 2, ownerSetSeqno := 0 }

def txDemo : MsTransaction :=
  { signers := [true, false, false], executed := false, ownerSetSeqno := 0 }

def txDemo2 : MsTransaction :=
  { signers := [true, true, false], executed := false, ownerSetSeqno := 0 }

/-- C1 counterexample: in the minimal `anchor-multisig` variant, with the
test's 2-of-3 account, the transaction created by owner 10 and then
approved by owner 11 has reached the threshold (two distinct approvals)
yet is not executed and still exists — execution is a separate
instruction, so it does not occur in the same logical step in which the
approval count reaches `m` (the behaviour its own test asserts at
`anchor-multisig.ts:447-450`). -/
theorem C1_counterexample :
    createTransaction msDemo 10 = .ok txDemo ∧
    approveTransaction msDemo txDemo 11 = .ok txDemo2 ∧
    msDemo.threshold ≤ txDemo2.signers.count true ∧
    txDemo2.executed = false :=
  ⟨by decide, by decide, by decide, by decide⟩

def stQ3 : State3 :=
  { m := 2, q := 10, signers := [1, 2, 3], signed := [true, false, false],
    queue := [{ payee := 9, amount := 5 }], balance := 0 }

def stQ3r : State3 :=
  { stQ3 with queue := [], signed := [false, false, false] }

theorem C1_witness :
    approve3 stQ3 2 = (stQ3r, none) ∧
    (stQ3r.queue = [] ∧
      stQ3r.signed = List.replicate stQ3.signers.length false) ∧
    (run3 stW3 [Op3.fund 4, Op3.approve 2]).signed.count true <
      (run3 stW3 [Op3.fund 4, Op3.approve 2]).m :=
  ⟨by decide,
   (C1_theorem.1 stQ3 2 stQ3r (by decide) (by decide) (by decide)).1
     (by decide),
   C1_theorem.2 [1, 2] 1 2 stW3 [Op3.fund 4, Op3.approve 2] (by decide)⟩

/-! ## C4: who auto-approves at creation -/

/-- C4 counterexample: the claim reverses the two variants.  In the minimal
`anchor-multisig` variant the created transaction already carries the
proposer's approval bit (`anchor-multisig.ts:419-422` observes
`[true, false, false]`), and in the `anchor-multisig3` variant a
successful `createTransfer` leaves the `signed` bitmap untouched — all
false here (`anchor-multisig3.ts:204-208` observes zero set bits after ten
creations). -/
theorem C4_counterexample :
    (createTransaction msDemo 10 = .ok txDemo ∧
      txDemo.signers = [true, false, false]) ∧
    (createTransfer3 (fund3 stW3 8) 1 9 5 = (stW10, none) ∧
      stW10.signed = [false, false]) :=
  ⟨⟨by decide, by decide⟩, ⟨by decide, by decide⟩⟩

/-- C4 (amended): in the minimal `anchor-multisig` variant, creating a
transaction records the creating owner's approval bit (and the transaction
starts unexecuted), while in the `anchor-multisig3` funded-queue variant a
successful `createTransfer` records no approval at all: the per-signer
bitmap is exactly what it was before the call. -/
theorem C4_theorem :
    (∀ (ms : MsAccount) (proposer : Nat) (tx : MsTransaction),
        createTransaction ms proposer = .ok tx →
        tx.signers.getD (ms.owners.indexOf proposer) false = true ∧
        tx.executed = false) ∧
    (∀ (st : State3) (creator payee amount : Nat) (st2 : State3),
        createTransfer3 st creator payee amount = (st2, none) →
        st2.signed = st.signed) := by
  constructor
  · intro ms proposer tx hok
    unfold createTransaction at hok
    split at hok
    · rename_i hmem
      cases hok
      refine ⟨?_, rfl⟩
      have hidx : ms.owners.indexOf proposer < ms.owners.length :=
        List.indexOf_lt_length.2 hmem
      exact getD_set_self _ _ _ _ (by simpa using hidx)
    · cases hok
  · intro st c p a st2 hok
    have hs := (createTransfer3_fst_m_signed st c p a).2
    rw [hok] at hs
    exact hs

def txW4 : MsTransaction :=
  { signers := [false, true, false], executed := false, ownerSetSeqno := 0 }

theorem C4_witness :
    createTransaction msDemo 11 = .ok txW4 ∧
    (txW4.signers.getD (msDemo.owners.indexOf 11) false = true ∧
      txW4.executed = false) ∧
    (createTransfer3 (fund3 stW3 8) 1 9 5 = (stW10, none) ∧
      stW10.signed = (fund3 stW3 8).signed) :=
  ⟨by decide, C4_theorem.1 msDemo 11 txW4 (by decide),
   ⟨by decide, C4_theorem.2 (fund3 stW3 8) 1 9 5 stW10 (by decide)⟩⟩

/-! ## C5: bitmap reset when the queue drains -/

/-- C5 (amended): in the later `anchor-multisig3` revision
(`src/unnamed/part_004`), whenever a successful approve drains a non-empty
queue, the whole per-signer bitmap is reset to all-false in that same
step; the earlier revision keeps the approvers' bits set instead (see the
counterexample). -/
theorem C5_theorem (st : State3) (s : Nat) (st2 : State3)
    (hok : approve3 st s = (st2, none)) (hne : st.queue ≠ [])
    (hdr : st2.queue = []) :
    st2.signed = List.replicate st.signers.length false := by
  by_cases h1 : s ∈ st.signers
  · by_cases h2 : (st.signed[st.signers.indexOf s]?).getD false = true
    · simp [approve3, h1, h2] at hok
    · by_cases h3 :
          st.m ≤ (st.signed.set (st.signers.indexOf s) true).count true
      · simp [approve3, h1, h2, h3] at hok
        subst hok
        rfl
      · simp [approve3, h1, h2, h3] at hok
        subst hok
        exact absurd hdr hne
  · simp [approve3, h1] at hok

def stC5 : State3 :=
  { m := 3, q := 100, signers := [1, 2, 3, 4, 5],
    signed := [true, true, false, false, false],
    queue := [{ payee := 9, amount := 5 }], balance := 0 }

/-- C5 counterexample: under the earlier `anchor-multisig3` revision's
approve (`approve3Keep`, whose drain behaviour is what
`anchor-multisig3.ts:247-249` asserts: three set bits and an empty queue
after the third approval), the approve by signer 3 drains the queue but
the bitmap is not reset — the claim's "every entry reset to false in that
same step" fails for this bitmap-tracking variant. -/
theorem C5_counterexample :
    (approve3Keep stC5 3).2 = none ∧
    (approve3Keep stC5 3).1.queue = [] ∧
    (approve3Keep stC5 3).1.signed = [true, true, true, false, false] ∧
    (approve3Keep stC5 3).1.signed ≠
      List.replicate stC5.signers.length false :=
  ⟨by decide, by decide, by decide, by decide⟩

theorem C5_witness :
    approve3 stQ3 2 = (stQ3r, none) ∧ stQ3.queue ≠ [] ∧ stQ3r.queue = [] ∧
    stQ3r.signed = List.replicate stQ3.signers.length false :=
  ⟨by decide, by decide, by decide,
   C5_theorem stQ3 2 stQ3r (by decide) (by decide) (by decide)⟩

/-! ## C9: the `anchor-multisig2` open layout -/

def ms2W : Multisig2 :=
  { m := 2, n := 3, signers := [0, 1, 2, 0, 0, 0, 0, 0, 0, 0, 0],
    txQueued := 0,
    txs := [none, none, none, none, none, none, none, none, none, none] }

/-- C9 counterexample: with the `part_005` revision's input — the supplied
three-element signer list already contains the payer (`part_005:15-21`) —
the stored signer count is 3, the supplied list's length, not the
supplied list's length plus one (the test expects `n = 3`,
`part_005:53`). -/
theorem C9_counterexample :
    openMultisig2 0 [0, 1, 2] 2 = .ok ms2W ∧
    ms2W.n ≠ ([0, 1, 2] : List Nat).length + 1 :=
  ⟨by decide, by decide⟩

/-- C9 (amended): `open` inserts the paying funder as the first signer
when the funder is absent from the supplied list — then the stored count
`n` is the supplied length plus one and `signers[0]` is the payer —
whereas when the supplied list already contains the payer the list is
stored as supplied and `n` equals its length; in both cases the stored
signer array has exactly 11 slots and the transaction list 10 slots, with
`txQueued` counting the occupied slots. -/
theorem C9_theorem (payer : Nat) (supplied : List Nat) (m : Nat)
    (ms : Multisig2) (hok : openMultisig2 payer supplied m = .ok ms) :
    (payer ∉ supplied →
      ms.n = supplied.length + 1 ∧ ms.signers.getD 0 0 = payer) ∧
    (payer ∈ supplied → ms.n = supplied.length) ∧
    ms.signers.length = maxSigners ∧
    ms.txs.length = maxTxs2 ∧
    ms.txQueued = (ms.txs.filter fun t => t.isSome).length := by
  unfold openMultisig2 at hok
  by_cases hp : payer ∈ supplied
  · simp only [if_pos hp] at hok
    split at hok
    · rename_i hv
      cases hok
      obtain ⟨-, hlen, -, -⟩ := hv
      refine ⟨fun hn => absurd hp hn, fun _ => rfl, ?_, rfl, ?_⟩
      · simp only [Multisig2.signers, List.length_append,
          List.length_replicate]
        omega
      · rfl
    · cases hok
  · simp only [if_neg hp] at hok
    split at hok
    · rename_i hv
      cases hok
      obtain ⟨-, hlen, -, -⟩ := hv
      refine ⟨fun _ => ⟨rfl, ?_⟩, fun hin => absurd hin hp, ?_, rfl, ?_⟩
      · simp
      · simp only [List.length_cons] at hlen
        simp only [Multisig2.signers, List.length_append,
          List.length_replicate, List.length_cons]
        omega
      · rfl
    · cases hok

theorem C9_witness :
    openMultisig2 0 [1, 2] 2 = .ok ms2W ∧
    (ms2W.n = ([1, 2] : List Nat).length + 1 ∧
      ms2W.signers.getD 0 0 = 0) ∧
    ms2W.signers.length = maxSigners ∧
    ms2W.txs.length = maxTxs2 ∧
    ms2W.txQueued = (ms2W.txs.filter fun t => t.isSome).length := by
  have h := C9_theorem 0 [1, 2] 2 ms2W (by decide)
  exact ⟨by decide, h.1 (by decide), h.2.2.1, h.2.2.2.1, h.2.2.2.2⟩

/-! ## C6: repeated approval by the same signer -/

def st0C6 : Multisig :=
  { signers := [1], threshold := 1, queueDepth := 2, balance := 5,
    nextHandle := 1,
    queue := [(0, { destination := 9, amount := 5,
                    approvals := [false] })] }

def st1C6 : Multisig :=
  { st0C6 with balance := 0, queue := [] }

/-- C6 counterexample: when the first approve is the one that completes
the quorum (here m = 1), the proposal is executed and removed in that same
call, so the second approve by the same signer on the same handle fails
with NotFound — not with AlreadyApproved as the claim states for every
signer and handle. -/
theorem C6_counterexample :
    approve st0C6 1 0 [9] = (st1C6, none) ∧
    approve st1C6 1 0 [9] = (st1C6, some MsErr.notFound) ∧
    MsErr.notFound ≠ MsErr.alreadyApproved :=
  ⟨by decide, by decide, by decide⟩

/-- C6 (amended): after a successful approve, a second approve by the same
signer on the same handle changes no state and fails: with
AlreadyApproved when the proposal is still queued (the first approve
stayed below the threshold), and with NotFound when the first approve
completed the quorum and the entry was executed and removed. -/
theorem C6_theorem (st : Multisig) (caller h : Nat) (aux : List Nat)
    (st1 : Multisig) (hwf : wfQueue st = true)
    (happ : approve st caller h aux = (st1, none)) :
    ((st1.queue.find? fun q => q.1 == h).isSome = true →
      approve st1 caller h aux = (st1, some MsErr.alreadyApproved)) ∧
    ((st1.queue.find? fun q => q.1 == h) = none →
      approve st1 caller h aux = (st1, some MsErr.notFound)) := by
  by_cases h1 : coversQueue st aux = true
  case neg => simp [approve, h1] at happ
  by_cases h2 : caller ∈ st.signers
  case neg => simp [approve, h1, h2] at happ
  rcases hf : st.queue.find? (fun q => q.1 == h) with _ | e
  · simp [approve, h1, h2, hf] at happ
  · by_cases h3 :
        (e.2.approvals[st.signers.indexOf caller]?).getD false = true
    case pos => simp [approve, h1, h2, hf, h3] at happ
    have he : e ∈ st.queue := List.mem_of_find?_eq_some hf
    have hlen : e.2.approvals.length = st.signers.length := by
      have hall : ∀ (a : Nat) (b : Proposal), (a, b) ∈ st.queue →
          b.approvals.length = st.signers.length := by
        simpa [wfQueue] using hwf
      exact hall e.1 e.2 (by simpa using he)
    have hidx : st.signers.indexOf caller < e.2.approvals.length := by
      rw [hlen]
      exact List.indexOf_lt_length.2 h2
    by_cases h4 : st.threshold ≤
        ((e.2.approvals.set (st.signers.indexOf caller) true).count true)
    · by_cases h5 : st.balance < (e.2.amount : Int)
      case pos => simp [approve, h1, h2, hf, h3, h4, h5] at happ
      simp [approve, h1, h2, hf, h3, h4, h5] at happ
      have hq1 : st1.queue = st.queue.filter fun q => q.1 != h := by
        rw [← happ]
      have hs1 : st1.signers = st.signers := by
        rw [← happ]
      have hfind1 : (st1.queue.find? fun q => q.1 == h) = none := by
        rw [hq1]
        exact find?_filter_ne st.queue h
      constructor
      · intro hsome
        simp [hfind1] at hsome
      · intro _
        have hcov1 : coversQueue st1 aux = true := by
          simp only [coversQueue, List.all_eq_true] at h1 ⊢
          intro x hx
          rw [hq1] at hx
          exact h1 x (List.mem_filter.1 hx).1
        simp [approve, hcov1, hs1, h2, hfind1]
    · simp [approve, h1, h2, hf, h3, h4] at happ
      have hq1 : st1.queue = st.queue.map fun q =>
          if q.1 = h then
            (q.1, Proposal.mk e.2.destination e.2.amount
              (e.2.approvals.set (st.signers.indexOf caller) true))
          else q := by
        rw [← happ]
      have hs1 : st1.signers = st.signers := by
        rw [← happ]
      have hfind1 : (st1.queue.find? fun q => q.1 == h) =
          some (h, Proposal.mk e.2.destination e.2.amount
            (e.2.approvals.set (st.signers.indexOf caller) true)) := by
        rw [hq1]
        exact find?_update st.queue h _ (by rw [hf]; rfl)
      constructor
      · intro _
        have hcov1 : coversQueue st1 aux = true := by
          simp only [coversQueue, List.all_eq_true] at h1 ⊢
          intro x hx
          rw [hq1] at hx
          obtain ⟨q, hq, rfl⟩ := List.mem_map.1 hx
          by_cases hqh : q.1 = h
          · simpa [hqh] using h1 e he
          · simpa [hqh] using h1 q hq
        have hbit1 :
            (((e.2.approvals.set (st.signers.indexOf caller) true)[
              st.signers.indexOf caller]?).getD false) = true := by
          simpa using getD_set_self e.2.approvals
            (st.signers.indexOf caller) true false hidx
        simp [approve, hcov1, hs1, h2, hfind1, hbit1]
      · intro hnone
        rw [hfind1] at hnone
        simp at hnone

def stC6w : Multisig :=
  { signers := [1, 2], threshold := 2, queueDepth := 3, balance := 5,
    nextHandle := 1,
    queue := [(0, { destination := 9, amount := 1,
                    approvals := [false, false] })] }

def stC6w1 : Multisig :=
  { stC6w with
      queue := [(0, { destination := 9, amount := 1,
                      approvals := [true, false] })] }

theorem C6_witness :
    wfQueue stC6w = true ∧
    approve stC6w 1 0 [9] = (stC6w1, none) ∧
    (stC6w1.queue.find? fun q => q.1 == 0).isSome = true ∧
    approve stC6w1 1 0 [9] = (stC6w1, some MsErr.alreadyApproved) :=
  ⟨by decide, by decide, by decide,
   (C6_theorem stC6w 1 0 [9] stC6w1 (by decide) (by decide)).1 (by decide)⟩
